import Mathlib

/-!
Verification of the Search Logger Obsidian plugin (kchinzei/search_logger_obsidian_plugin).

Shallow embedding of the request handler in `src/loggingServer.ts`
(`createHttpHandler`), the settings helpers in `src/settings.ts`
(`validatePort`, `MAX_RECENT`, `MIN_PORT`, `MAX_PORT`) and the port-change
(rebind) logic of the settings tab, `searchLoggerSettingTab.ts`: its port
`onChange` handler closes the old server, binds a fresh one on the new port,
classifies a bind failure by `err.code === "EADDRINUSE"`, and rolls back with
`oldServer.listen(oldPort, cb)` — a listen with no error handler, so a failed
rollback leaves no listener and an unhandled error event.

JavaScript values flowing through the handler are modelled by an inductive
`Json` type (the possible results of `JSON.parse`) together with
`JsVal := Option Json`, where `none` models the JavaScript value `undefined`
(property access on an object that lacks the property).  JSON numbers are
modelled as integers: every number the spec's data model mentions
(`timestamp`: integer milliseconds) is integral.

The Obsidian vault, an external collaborator, is modelled per spec §6/§4.3:
a list of (path, entry) pairs with the five operations
`getAbstractFileByPath` / `create` / `read` / `modify` / `append`;
`create` rejects a path whose immediate parent folder is absent (spec §4.3:
"the writer never invents intermediate parent containers; if the path implies
a parent that is absent, commit fails").
-/

namespace SearchLogger

/-- Result of a successful `JSON.parse`: a JSON value.  Numbers are modelled
as integers (see the header comment). -/
inductive Json where
  | null : Json
  | bool (b : Bool) : Json
  | num (n : Int) : Json
  | str (s : String) : Json
  | arr (elems : List Json) : Json
  | obj (fields : List (String × Json)) : Json

/-- A JavaScript value as seen by the handler: `none` models `undefined`. -/
abbrev JsVal := Option Json

/-- Property access `j.key` as performed by the destructuring
`const { query, url, timestamp } = JSON.parse(body)`: on an object the value
of the (last, as JSON.parse keeps the last duplicate key) binding of `key`,
`undefined` otherwise. -/
def Json.getField : Json → String → JsVal
  | .obj fields, key => ((fields.filter (fun f => f.1 == key)).getLast?).map (fun f => f.2)
  | _, _ => none

/-- Destructuring `const {…} = x` throws exactly when `x` is `null`
(`JSON.parse` never returns `undefined`); on every other JSON value the
fields are read off (possibly as `undefined`). -/
def jsDestructThrows : Json → Bool
  | .null => true
  | _ => false

/-- SameValueZero equality, as used by `Array.prototype.includes` in
`recentQueries.includes(query)`.  Primitives compare by value; arrays and
objects compare by reference — the incoming `query` is freshly produced by
`JSON.parse`, so it can never be reference-equal to a stored array/object,
hence those cases are `false`. -/
def svz : JsVal → JsVal → Bool
  | none, none => true
  | some .null, some .null => true
  | some (.bool a), some (.bool b) => a == b
  | some (.num a), some (.num b) => a == b
  | some (.str a), some (.str b) => a == b
  | _, _ => false

mutual

/-- JavaScript `String(x)` conversion of a JSON value, as performed by the
template literal building the log line. -/
def Json.toJsString : Json → String
  | .null => "null"
  | .bool true => "true"
  | .bool false => "false"
  | .num n => toString n
  | .str s => s
  | .arr elems => String.intercalate "," (Json.arrJoin elems)
  | .obj _ => "[object Object]"

/-- Elementwise stringification used by `Array.prototype.toString` (join with
","): `null` elements render as the empty string. -/
def Json.arrJoin : List Json → List String
  | [] => []
  | .null :: rest => "" :: Json.arrJoin rest
  | j :: rest => j.toJsString :: Json.arrJoin rest

end

/-- `String(x)` on a possibly-`undefined` value. -/
def jsValToString : JsVal → String
  | none => "undefined"
  | some j => j.toJsString

/-! Constants from `src/settings.ts`. -/

def MAX_RECENT : Nat := 3

def MIN_PORT : ℚ := 1024

def MAX_PORT : ℚ := 65535

/-- Modelled from the spec: the localized message lookup `t` of
`src/plugin/i18n.ts` reads external translation tables that are not part of
the sources; the source falls back to the key itself when no table defines
it, and only which branch produces a message matters here, so the lookup is
modelled as returning its key. -/
def t (key : String) : String := key

/-- `validatePort` from `src/settings.ts`.  The JavaScript `number` argument
is modelled as a rational: `Number.isInteger(port)` holds iff the denominator
is 1. -/
def validatePort (port : ℚ) : Option String :=
  if port.den ≠ 1 then some (t "settings.error.port_is_int")
  else if port < MIN_PORT ∨ MAX_PORT < port then some (t "settings.error.port_out_range")
  else none

/-! The vault (document store), an external collaborator (spec §6). -/

/-- An entry of the document store: a document with its full content, or a
directory-like container. -/
inductive VEntry where
  | file (content : String) : VEntry
  | folder : VEntry

/-- The document store: paths mapped to entries. -/
abbrev Vault := List (String × VEntry)

/-- `app.vault.getAbstractFileByPath`: the entry at a path, if any. -/
def getAbstractFileByPath (v : Vault) (path : String) : Option VEntry :=
  (v.find? (fun e => e.1 == path)).map (fun e => e.2)

/-- Split a character list on the slash separator (the semantics of
`path.split("/")`). -/
def splitSlash : List Char → List (List Char)
  | [] => [[]]
  | c :: rest =>
    if c == '/' then [] :: splitSlash rest
    else
      match splitSlash rest with
      | [] => [[c]]
      | h :: tl => (c :: h) :: tl

/-- Join character-list segments with the slash separator. -/
def joinSlash : List (List Char) → List Char
  | [] => []
  | [seg] => seg
  | seg :: rest => seg ++ '/' :: joinSlash rest

/-- The immediate parent of a slash-separated path; `none` for a root-level
path. -/
def parentPath (path : String) : Option String :=
  let parts := splitSlash path.data
  if parts.length > 1 then some (String.mk (joinSlash parts.dropLast)) else none

/-- `app.vault.create`: creates a document with the given content.  Rejects
(throws, modelled as `.error`) when the path already exists or when its
immediate parent container is absent (spec §4.3: the writer never invents
intermediate parent containers). -/
def vaultCreate (v : Vault) (path content : String) : Except String Vault :=
  if (getAbstractFileByPath v path).isSome then .error "destination already exists"
  else
    match parentPath path with
    | none => .ok (v ++ [(path, .file content)])
    | some parent =>
      match getAbstractFileByPath v parent with
      | some .folder => .ok (v ++ [(path, .file content)])
      | _ => .error "parent folder missing"

/-- `app.vault.read`: the full content of the document at a path. -/
def vaultRead (v : Vault) (path : String) : String :=
  match getAbstractFileByPath v path with
  | some (.file c) => c
  | _ => ""

/-- `app.vault.modify`: replace the full content of the document at a path. -/
def vaultModify (v : Vault) (path content : String) : Vault :=
  v.map (fun e => if e.1 == path then (e.1, .file content) else e)

/-- `app.vault.append`: add content after the existing content of the
document at a path. -/
def vaultAppend (v : Vault) (path line : String) : Vault :=
  v.map (fun e =>
    if e.1 == path then
      (e.1, match e.2 with
            | .file old => VEntry.file (old ++ line)
            | other => other)
    else e)

/-! The HTTP handler of `src/loggingServer.ts`. -/

/-- The `LogContext` values the handler closure reads through its getters:
`getLogFileName()` and `getPrependMode()`. -/
structure LogContext where
  logFileName : String
  prependMode : Bool

/-- Mutable state touched by the handler: the vault and the `recentQueries`
circular buffer (a buffer slot holds whatever value was destructured out of
the parsed body, hence `JsVal`). -/
structure ServerState where
  vault : Vault
  recentQueries : List JsVal

/-- One observable action of the handler, in execution order: the vault
operations it issues, the buffer recording (`recentQueries.push` plus the
capacity `shift`), and the `console.warn` diagnostic. -/
inductive Action where
  | create (path content : String) : Action
  | read (path : String) : Action
  | modify (path content : String) : Action
  | append (path line : String) : Action
  | record (q : JsVal) : Action
  | warn : Action

/-- Outcome of handling one request: HTTP status, resulting state, and the
trace of actions in the order they were performed. -/
structure HandlerResult where
  status : Nat
  state : ServerState
  trace : List Action

/-- `recentQueries.includes(query)` (SameValueZero membership). -/
def isDuplicateIn (buf : List JsVal) (q : JsVal) : Bool :=
  buf.any (fun x => svz x q)

/-- The buffer maintenance of the handler:
`recentQueries.push(query); if (recentQueries.length > MAX_RECENT) shift()`. -/
def recordRecentQuery (buf : List JsVal) (q : JsVal) : List JsVal :=
  let pushed := buf ++ [q]
  if MAX_RECENT < pushed.length then pushed.tail else pushed

/-- The committed log line:
`` `- ${timestamp}\t— ${query} [↗️](${url})\n` ``. -/
def formatLine (query url timestamp : JsVal) : String :=
  "- " ++ jsValToString timestamp ++ "\t— " ++ jsValToString query
    ++ " [↗️](" ++ jsValToString url ++ ")\n"

/-- The body of the `req.on("end", …)` callback after a successful
`JSON.parse` and destructuring: dedup check, commit, buffer maintenance.
Any thrown vault error is caught by the surrounding `try` and answered with
400, skipping the buffer push. -/
def handleParsed (ctx : LogContext) (j : Json) (s : ServerState) : HandlerResult :=
  let query := j.getField "query"
  let url := j.getField "url"
  let timestamp := j.getField "timestamp"
  if isDuplicateIn s.recentQueries query then ⟨200, s, []⟩
  else
    let effective := ctx.logFileName
    let line := formatLine query url timestamp
    match getAbstractFileByPath s.vault effective with
    | none =>
      match vaultCreate s.vault effective line with
      | .ok v2 =>
        ⟨200, ⟨v2, recordRecentQuery s.recentQueries query⟩,
          [.create effective line, .record query]⟩
      | .error _ => ⟨400, s, [.create effective line]⟩
    | some (.file _) =>
      if ctx.prependMode then
        let oldContent := vaultRead s.vault effective
        let newContent := line ++ oldContent
        ⟨200, ⟨vaultModify s.vault effective newContent, recordRecentQuery s.recentQueries query⟩,
          [.read effective, .modify effective newContent, .record query]⟩
      else
        ⟨200, ⟨vaultAppend s.vault effective line, recordRecentQuery s.recentQueries query⟩,
          [.append effective line, .record query]⟩
    | some .folder =>
      ⟨200, ⟨s.vault, recordRecentQuery s.recentQueries query⟩, [.warn, .record query]⟩

/-- The `POST /log` path of the handler.  `body` is the outcome of
`JSON.parse` on the accumulated request body: `none` when the parse throws,
`some j` otherwise; destructuring `null` also throws.  Both throws land in
the `catch` which answers 400 with no state change. -/
def handleLog (ctx : LogContext) (body : Option Json) (s : ServerState) : HandlerResult :=
  match body with
  | none => ⟨400, s, []⟩
  | some j =>
    if jsDestructThrows j then ⟨400, s, []⟩
    else handleParsed ctx j s

/-- A request as dispatched by `createHttpHandler`: CORS preflight, a
`POST /log` with a parsed body, or anything else (404). -/
inductive Request where
  | options : Request
  | postLog (body : Option Json) : Request
  | other : Request

/-- Top-level dispatch of `createHttpHandler`. -/
def handle (ctx : LogContext) (r : Request) (s : ServerState) : HandlerResult :=
  match r with
  | .options => ⟨200, s, []⟩
  | .postLog body => handleLog ctx body s
  | .other => ⟨404, s, []⟩

/-- Sequentially handle a list of requests, threading the state. -/
def runRequests (ctx : LogContext) (s : ServerState) : List Request → ServerState
  | [] => s
  | r :: rest => runRequests ctx (handle ctx r s).state rest

/-- The event shape `{query: string, url: string, timestamp: number}` the
spec expects of a request body. -/
def isEventShape (j : Json) : Bool :=
  (match j.getField "query" with | some (.str _) => true | _ => false)
    && (match j.getField "url" with | some (.str _) => true | _ => false)
    && (match j.getField "timestamp" with | some (.num _) => true | _ => false)

/-- Whether an action writes to the document store. -/
def isWrite : Action → Bool
  | .create _ _ => true
  | .modify _ _ => true
  | .append _ _ => true
  | _ => false

/-- Whether an action is any document-store operation (read included). -/
def isVaultOp : Action → Bool
  | .create _ _ => true
  | .read _ => true
  | .modify _ _ => true
  | .append _ _ => true
  | _ => false

/-- Whether an action is the buffer recording. -/
def isRecord : Action → Bool
  | .record _ => true
  | _ => false

/-- Number of document-store writes in a trace. -/
def countWrites (tr : List Action) : Nat :=
  (tr.filter isWrite).length

/-- The ordering property claimed by the spec: every buffer recording
precedes every document-store write in the trace. -/
def recordBeforeEveryWrite (tr : List Action) : Prop :=
  ∀ i j (hi : i < tr.length) (hj : j < tr.length),
    isRecord (tr.get ⟨i, hi⟩) = true → isWrite (tr.get ⟨j, hj⟩) = true → i < j

/-- The ordering property the code actually has: every document-store write
precedes every buffer recording in the trace. -/
def writesBeforeEveryRecord (tr : List Action) : Prop :=
  ∀ i j (hi : i < tr.length) (hj : j < tr.length),
    isWrite (tr.get ⟨i, hi⟩) = true → isRecord (tr.get ⟨j, hj⟩) = true → i < j

namespace Rebind

/-- Outcome the operating system gives a `listen(port)` attempt, as awaited
by the port `onChange` handler of `searchLoggerSettingTab.ts`
(`new Promise((resolve, reject) => { server.once("error", reject);
server.once("listening", resolve); server.listen(port); })`): the
`listening` event fires, or the `error` event fires with
`err.code === "EADDRINUSE"`, or with some other code and message. -/
inductive BindOutcome where
  | ok : BindOutcome
  | addrInUse : BindOutcome
  | otherFail (msg : String) : BindOutcome

/-- The classification the catch block of the port `onChange` handler
applies to a failed bind: `err.code === "EADDRINUSE"` yields the
`port_used` message, anything else the `port_openfail` message carrying
`err.message`. -/
inductive BindErr where
  | AddressInUse : BindErr
  | OtherBindFailure (msg : String) : BindErr
deriving DecidableEq

/-- The plugin network state the port-change handler starts from:
`this.plugin.server` (represented by the port the active listener is bound
to, if any) and `this.plugin.settings.port`. -/
structure PluginState where
  server : Option Nat
  port : Nat

/-- The observable outcome of one run of the port `onChange` handler:
the resulting `plugin.server` (the port it listens on, if any), the
resulting `settings.port`, the classified error reported to the caller
(`none` on success), and whether an unhandled `error` event was emitted
(the rollback `oldServer.listen(oldPort, cb)` installs no error handler,
so a failed rollback bind raises an unhandled error). -/
structure RebindResult where
  server : Option Nat
  port : Nat
  reported : Option BindErr
  crashed : Bool

/-- The catch block after a failed bind of the new port
(`searchLoggerSettingTab.ts`): the partially created new server is closed,
and if an old server existed it is re-listened on `oldPort` with a success
callback that restores `this.plugin.server = oldServer` — but with NO error
handler: when re-binding the old port fails, the `error` event is unhandled
(`crashed`), the callback never runs and `plugin.server` stays null. -/
def rollbackToOld (env : Nat → BindOutcome) (oldServer : Option Nat) (oldPort : Nat)
    (reported : BindErr) : RebindResult :=
  match oldServer with
  | none => ⟨none, oldPort, some reported, false⟩
  | some _ =>
    match env oldPort with
    | .ok => ⟨some oldPort, oldPort, some reported, false⟩
    | _ => ⟨none, oldPort, some reported, true⟩

/-- The rebind logic of the settings tab port `onChange` handler, after
`validatePort` has passed: save `oldPort := settings.port` and
`oldServer := plugin.server`, close the old server and null
`plugin.server`, create the new server and await its bind on
`portCandidate`; on success install it (`plugin.server = newServer;
settings.port = portCandidate`, persisted); on failure classify the error
and roll back (`rollbackToOld`).  `env` is the operating system answer to
binding each port during this exchange. -/
def changePort (env : Nat → BindOutcome) (cur : PluginState) (portCandidate : Nat) :
    RebindResult :=
  let oldPort := cur.port
  let oldServer := cur.server
  match env portCandidate with
  | .ok => ⟨some portCandidate, portCandidate, none, false⟩
  | .addrInUse => rollbackToOld env oldServer oldPort .AddressInUse
  | .otherFail m => rollbackToOld env oldServer oldPort (.OtherBindFailure m)

/-- The service is reachable on a port iff the active listener is bound
there. -/
def reachableOn (r : RebindResult) (p : Nat) : Prop :=
  r.server = some p

end Rebind

/-! Helper lemmas. -/

theorem svz_str (a b : String) : svz (some (.str a)) (some (.str b)) = (a == b) := rfl

theorem recordRecentQuery_length_le (b : List JsVal) (q : JsVal)
    (h : b.length ≤ MAX_RECENT) :
    (recordRecentQuery b q).length ≤ MAX_RECENT := by
  unfold recordRecentQuery
  dsimp only
  split
  · rename_i hgt
    simp only [List.length_tail, List.length_append, List.length_singleton]
    omega
  · rename_i hle
    rw [not_lt] at hle
    exact hle

theorem mem_recordRecentQuery (b : List JsVal) (q x : JsVal)
    (h : x ∈ recordRecentQuery b q) : x ∈ b ∨ x = q := by
  unfold recordRecentQuery at h
  dsimp only at h
  split at h
  · have : x ∈ b ++ [q] := List.tail_subset _ h
    simpa using this
  · simpa using h

theorem self_mem_recordRecentQuery (b : List JsVal) (q : JsVal) :
    q ∈ recordRecentQuery b q := by
  unfold recordRecentQuery
  dsimp only
  split
  · rename_i hgt
    cases b with
    | nil => simp [MAX_RECENT] at hgt
    | cons hd tl => simp
  · simp

theorem isDuplicateIn_recordRecentQuery_self (b : List JsVal) (s : String) :
    isDuplicateIn (recordRecentQuery b (some (.str s))) (some (.str s)) = true := by
  unfold isDuplicateIn
  rw [List.any_eq_true]
  exact ⟨some (.str s), self_mem_recordRecentQuery _ _, by simp [svz_str]⟩

theorem handleLog_recentQueries (ctx : LogContext) (body : Option Json) (s : ServerState) :
    (handleLog ctx body s).state.recentQueries = s.recentQueries ∨
    ∃ j, body = some j ∧
      (handleLog ctx body s).state.recentQueries
        = recordRecentQuery s.recentQueries (j.getField "query") := by
  cases body with
  | none => exact Or.inl rfl
  | some j =>
    simp only [handleLog, handleParsed]
    split
    · exact Or.inl rfl
    · split
      · exact Or.inl rfl
      · split
        · split
          · exact Or.inr ⟨j, rfl, rfl⟩
          · exact Or.inl rfl
        · split
          · exact Or.inr ⟨j, rfl, rfl⟩
          · exact Or.inr ⟨j, rfl, rfl⟩
        · exact Or.inr ⟨j, rfl, rfl⟩

theorem handle_recentQueries_le (ctx : LogContext) (r : Request) (s : ServerState)
    (h : s.recentQueries.length ≤ MAX_RECENT) :
    (handle ctx r s).state.recentQueries.length ≤ MAX_RECENT := by
  cases r with
  | options => exact h
  | other => exact h
  | postLog body =>
    rcases handleLog_recentQueries ctx body s with heq | ⟨j, _, heq⟩
    · rw [show handle ctx (.postLog body) s = handleLog ctx body s from rfl, heq]; exact h
    · rw [show handle ctx (.postLog body) s = handleLog ctx body s from rfl, heq]
      exact recordRecentQuery_length_le _ _ h

theorem runRequests_recentQueries_le (ctx : LogContext) (reqs : List Request)
    (s : ServerState) (h : s.recentQueries.length ≤ MAX_RECENT) :
    (runRequests ctx s reqs).recentQueries.length ≤ MAX_RECENT := by
  induction reqs generalizing s with
  | nil => exact h
  | cons r rest ih =>
    exact ih _ (handle_recentQueries_le ctx r s h)

theorem mem_handle_recentQueries (ctx : LogContext) (r : Request) (s : ServerState)
    (x : JsVal) (hx : x ∈ (handle ctx r s).state.recentQueries) :
    x ∈ s.recentQueries ∨ ∃ j, r = .postLog (some j) ∧ x = j.getField "query" := by
  cases r with
  | options => exact Or.inl hx
  | other => exact Or.inl hx
  | postLog body =>
    rcases handleLog_recentQueries ctx body s with heq | ⟨j, hbody, heq⟩
    · rw [show handle ctx (.postLog body) s = handleLog ctx body s from rfl, heq] at hx
      exact Or.inl hx
    · rw [show handle ctx (.postLog body) s = handleLog ctx body s from rfl, heq] at hx
      rcases mem_recordRecentQuery _ _ _ hx with hmem | hq
      · exact Or.inl hmem
      · exact Or.inr ⟨j, by rw [hbody], hq⟩

theorem getField_some_not_throws (j : Json) (k : String) (v : Json)
    (h : j.getField k = some v) : jsDestructThrows j = false := by
  cases j <;> first | rfl | simp [Json.getField] at h

theorem getAbstractFileByPath_cons (k0 : String) (e0 : VEntry) (tl : Vault) (p : String) :
    getAbstractFileByPath ((k0, e0) :: tl) p
      = if k0 == p then some e0 else getAbstractFileByPath tl p := by
  cases hk : (k0 == p) <;> simp [getAbstractFileByPath, List.find?_cons, hk]

theorem vaultModify_cons (k0 : String) (e0 : VEntry) (tl : Vault) (p c : String) :
    vaultModify ((k0, e0) :: tl) p c
      = (if k0 == p then (k0, VEntry.file c) else (k0, e0)) :: vaultModify tl p c := rfl

theorem vaultAppend_cons (k0 : String) (e0 : VEntry) (tl : Vault) (p line : String) :
    vaultAppend ((k0, e0) :: tl) p line
      = (if k0 == p then
          (k0, match e0 with
               | VEntry.file old => VEntry.file (old ++ line)
               | other => other)
         else (k0, e0)) :: vaultAppend tl p line := rfl

theorem getAbstractFileByPath_vaultModify_self (v : Vault) (p c : String) (e : VEntry)
    (h : getAbstractFileByPath v p = some e) :
    getAbstractFileByPath (vaultModify v p c) p = some (.file c) := by
  induction v with
  | nil => simp [getAbstractFileByPath] at h
  | cons hd tl ih =>
    obtain ⟨k0, e0⟩ := hd
    cases hk : (k0 == p) with
    | true =>
      rw [vaultModify_cons, if_pos hk, getAbstractFileByPath_cons, if_pos hk]
    | false =>
      rw [getAbstractFileByPath_cons, if_neg (by simp [hk])] at h
      rw [vaultModify_cons, if_neg (by simp [hk]), getAbstractFileByPath_cons,
        if_neg (by simp [hk])]
      exact ih h

theorem getAbstractFileByPath_vaultAppend_self (v : Vault) (p line old : String)
    (h : getAbstractFileByPath v p = some (.file old)) :
    getAbstractFileByPath (vaultAppend v p line) p = some (.file (old ++ line)) := by
  induction v with
  | nil => simp [getAbstractFileByPath] at h
  | cons hd tl ih =>
    obtain ⟨k0, e0⟩ := hd
    cases hk : (k0 == p) with
    | true =>
      rw [getAbstractFileByPath_cons, if_pos hk] at h
      have he : e0 = .file old := by injection h
      subst he
      rw [vaultAppend_cons, if_pos hk, getAbstractFileByPath_cons, if_pos hk]
    | false =>
      rw [getAbstractFileByPath_cons, if_neg (by simp [hk])] at h
      rw [vaultAppend_cons, if_neg (by simp [hk]), getAbstractFileByPath_cons,
        if_neg (by simp [hk])]
      exact ih h

theorem wbr_nil : writesBeforeEveryRecord [] := by
  intro i j hi hj hw hr
  simp at hi

theorem wbr_one (a : Action) (ha : isRecord a = false) : writesBeforeEveryRecord [a] := by
  intro i j hi hj hw hr
  have hj0 : j = 0 := Nat.lt_one_iff.mp hj
  subst hj0
  exact absurd (show isRecord a = true from hr) (by simp [ha])

theorem wbr_two (a b : Action) (hra : isRecord a = false) (hwb : isWrite b = false) :
    writesBeforeEveryRecord [a, b] := by
  intro i j hi hj hw hr
  simp only [List.length_cons, List.length_nil] at hi hj
  interval_cases i <;> interval_cases j
  · exact absurd (show isRecord a = true from hr) (by simp [hra])
  · decide
  · exact absurd (show isWrite b = true from hw) (by simp [hwb])
  · exact absurd (show isWrite b = true from hw) (by simp [hwb])

theorem wbr_three (a b c : Action) (hra : isRecord a = false) (hrb : isRecord b = false)
    (hwc : isWrite c = false) : writesBeforeEveryRecord [a, b, c] := by
  intro i j hi hj hw hr
  simp only [List.length_cons, List.length_nil] at hi hj
  interval_cases i <;> interval_cases j <;>
    first
      | decide
      | exact absurd (show isRecord a = true from hr) (by simp [hra])
      | exact absurd (show isRecord b = true from hr) (by simp [hrb])
      | exact absurd (show isWrite c = true from hw) (by simp [hwc])

/-- C3 counterexample: for a well-formed, non-duplicate event against an
existing log document in append mode, the handler's trace is
`[append, record]` — the document commit happens BEFORE the query is
recorded in the recent-query buffer, so the claimed ordering (buffer
mutation before commit) is false on this concrete input. -/
theorem buffer_record_before_commit_counterexample :
    ¬ recordBeforeEveryWrite
        (handleLog ⟨"log.md", false⟩
          (some (Json.obj [("query", Json.str "cats"), ("url", Json.str "u"),
            ("timestamp", Json.num 5)]))
          ⟨[("log.md", VEntry.file "")], []⟩).trace := by
  intro h
  exact absurd (h 1 0 (by decide) (by decide) rfl rfl) (by decide)

/-- C3 (amended): for every handled `POST /log` request, every document-store
write in the trace precedes every buffer recording (the code commits first
and records the query afterwards), and the dedup check happens before the
commit: a request whose query is already in the buffer produces no write. -/
theorem commit_precedes_buffer_record :
    ∀ (ctx : LogContext) (body : Option Json) (s : ServerState),
      writesBeforeEveryRecord (handleLog ctx body s).trace
      ∧ (∀ j, body = some j →
          isDuplicateIn s.recentQueries (j.getField "query") = true →
          (handleLog ctx body s).trace.filter isWrite = []) := by
  intro ctx body s
  constructor
  · cases body with
    | none => exact wbr_nil
    | some j =>
      simp only [handleLog, handleParsed]
      split
      · exact wbr_nil
      · split
        · exact wbr_nil
        · split
          · split
            · exact wbr_two _ _ rfl rfl
            · exact wbr_one _ rfl
          · split
            · exact wbr_three _ _ _ rfl rfl rfl
            · exact wbr_two _ _ rfl rfl
          · exact wbr_two _ _ rfl rfl
  · intro j hbody hdup
    subst hbody
    simp only [handleLog, handleParsed]
    cases hthrow : jsDestructThrows j with
    | true => simp
    | false => simp [hdup]

/-- C3 witness: a duplicate request produces no write, at a concrete input. -/
theorem commit_precedes_buffer_record_witness :
    (some (Json.obj [("query", Json.str "cats")]) = some (Json.obj [("query", Json.str "cats")]))
    ∧ isDuplicateIn ([some (Json.str "cats")] : List JsVal)
        ((Json.obj [("query", Json.str "cats")]).getField "query") = true
    ∧ (handleLog ⟨"log.md", false⟩ (some (Json.obj [("query", Json.str "cats")]))
        ⟨[], [some (Json.str "cats")]⟩).trace.filter isWrite = [] :=
  ⟨rfl, rfl,
    (commit_precedes_buffer_record ⟨"log.md", false⟩
      (some (Json.obj [("query", Json.str "cats")])) ⟨[], [some (Json.str "cats")]⟩).2
      (Json.obj [("query", Json.str "cats")]) rfl rfl⟩

/-- C9: whenever the `POST /log` handler responds 400 — parse failure or
commit failure — the recent-query buffer is unchanged by that request. -/
theorem error_response_leaves_buffer :
    ∀ (ctx : LogContext) (body : Option Json) (s : ServerState),
      (handleLog ctx body s).status = 400 →
      (handleLog ctx body s).state.recentQueries = s.recentQueries := by
  intro ctx body s
  cases body with
  | none => intro _; rfl
  | some j =>
    simp only [handleLog, handleParsed]
    split
    · intro _; rfl
    · split
      · intro h; simp at h
      · split
        · split
          · intro h; simp at h
          · intro _; rfl
        · split
          · intro h; simp at h
          · intro h; simp at h
        · intro h; simp at h

/-- C9 witness: a malformed body (JSON.parse throws) gives 400 and leaves a
concrete non-empty buffer unchanged. -/
theorem error_response_leaves_buffer_witness :
    (handleLog ⟨"log.md", false⟩ none ⟨[], [some (Json.str "a")]⟩).status = 400
    ∧ (handleLog ⟨"log.md", false⟩ none ⟨[], [some (Json.str "a")]⟩).state.recentQueries
        = [some (Json.str "a")] :=
  ⟨rfl, error_response_leaves_buffer ⟨"log.md", false⟩ none ⟨[], [some (Json.str "a")]⟩ rfl⟩

/-- C7: when the resolved target path denotes a folder, the handler issues no
document-store operation at all, leaves the vault unchanged, emits the
warning, and still responds 200. -/
theorem container_target_dropped :
    ∀ (ctx : LogContext) (s : ServerState) (j : Json),
      jsDestructThrows j = false →
      isDuplicateIn s.recentQueries (j.getField "query") = false →
      getAbstractFileByPath s.vault ctx.logFileName = some .folder →
      (handleLog ctx (some j) s).status = 200
      ∧ (handleLog ctx (some j) s).state.vault = s.vault
      ∧ (handleLog ctx (some j) s).trace.filter isVaultOp = []
      ∧ Action.warn ∈ (handleLog ctx (some j) s).trace := by
  intro ctx s j hthrow hdup hfolder
  have hred : handleLog ctx (some j) s
      = ⟨200, ⟨s.vault, recordRecentQuery s.recentQueries (j.getField "query")⟩,
         [.warn, .record (j.getField "query")]⟩ := by
    simp only [handleLog, handleParsed]
    rw [hthrow, hdup, hfolder]
    rfl
  refine ⟨by rw [hred], by rw [hred], by rw [hred]; rfl, ?_⟩
  rw [hred]
  exact List.mem_cons_self _ _

/-- C7 witness: concrete folder-shaped target. -/
theorem container_target_dropped_witness :
    jsDestructThrows (Json.obj [("query", Json.str "cats")]) = false
    ∧ isDuplicateIn ([] : List JsVal) ((Json.obj [("query", Json.str "cats")]).getField "query")
        = false
    ∧ getAbstractFileByPath [("log.md", VEntry.folder)] "log.md" = some .folder
    ∧ ((handleLog ⟨"log.md", false⟩ (some (Json.obj [("query", Json.str "cats")]))
          ⟨[("log.md", VEntry.folder)], []⟩).status = 200
       ∧ (handleLog ⟨"log.md", false⟩ (some (Json.obj [("query", Json.str "cats")]))
          ⟨[("log.md", VEntry.folder)], []⟩).state.vault = [("log.md", VEntry.folder)]
       ∧ (handleLog ⟨"log.md", false⟩ (some (Json.obj [("query", Json.str "cats")]))
          ⟨[("log.md", VEntry.folder)], []⟩).trace.filter isVaultOp = []
       ∧ Action.warn ∈ (handleLog ⟨"log.md", false⟩
          (some (Json.obj [("query", Json.str "cats")]))
          ⟨[("log.md", VEntry.folder)], []⟩).trace) :=
  ⟨rfl, rfl, rfl,
    container_target_dropped ⟨"log.md", false⟩ ⟨[("log.md", VEntry.folder)], []⟩
      (Json.obj [("query", Json.str "cats")]) rfl rfl rfl⟩

/-- C10: an event dropped because the target is a folder still has its query
recorded in the buffer, so an immediately repeated identical query is
suppressed as a duplicate (200, no operation, state unchanged) although no
line was ever committed. -/
theorem container_drop_records_query :
    ∀ (ctx : LogContext) (s : ServerState) (j : Json) (q : String),
      j.getField "query" = some (.str q) →
      isDuplicateIn s.recentQueries (some (.str q)) = false →
      getAbstractFileByPath s.vault ctx.logFileName = some .folder →
      (handleLog ctx (some j) s).status = 200
      ∧ (handleLog ctx (some j) s).trace.filter isWrite = []
      ∧ isDuplicateIn (handleLog ctx (some j) s).state.recentQueries (some (.str q)) = true
      ∧ handleLog ctx (some j) (handleLog ctx (some j) s).state
          = ⟨200, (handleLog ctx (some j) s).state, []⟩ := by
  intro ctx s j q hq hdup hfolder
  have hthrow := getField_some_not_throws j _ _ hq
  have hred : handleLog ctx (some j) s
      = ⟨200, ⟨s.vault, recordRecentQuery s.recentQueries (some (.str q))⟩,
         [.warn, .record (some (.str q))]⟩ := by
    simp only [handleLog, handleParsed]
    rw [hthrow, hq, hdup, hfolder]
    rfl
  refine ⟨by rw [hred], by rw [hred]; rfl, ?_, ?_⟩
  · rw [hred]
    exact isDuplicateIn_recordRecentQuery_self _ _
  · rw [hred]
    simp only [handleLog, handleParsed]
    rw [hthrow, hq, isDuplicateIn_recordRecentQuery_self]
    rfl

/-- C10 witness: concrete folder-shaped target, same query twice. -/
theorem container_drop_records_query_witness :
    (Json.obj [("query", Json.str "cats")]).getField "query" = some (Json.str "cats")
    ∧ isDuplicateIn ([] : List JsVal) (some (Json.str "cats")) = false
    ∧ getAbstractFileByPath [("log.md", VEntry.folder)] "log.md" = some .folder
    ∧ isDuplicateIn (handleLog ⟨"log.md", false⟩
        (some (Json.obj [("query", Json.str "cats")]))
        ⟨[("log.md", VEntry.folder)], []⟩).state.recentQueries (some (Json.str "cats")) = true :=
  ⟨rfl, rfl, rfl,
    (container_drop_records_query ⟨"log.md", false⟩ ⟨[("log.md", VEntry.folder)], []⟩
      (Json.obj [("query", Json.str "cats")]) "cats" rfl rfl rfl).2.2.1⟩

/-- C4: a `POST /log` whose query exactly matches a buffer entry gets 200
with no document-store operation and state (buffer and vault) unchanged;
and submitting the same query twice against an existing log document
commits exactly one line (one write on the first request, none on the
second). -/
theorem duplicate_suppressed_no_write :
    (∀ (ctx : LogContext) (s : ServerState) (j : Json) (q : String),
      j.getField "query" = some (.str q) →
      isDuplicateIn s.recentQueries (some (.str q)) = true →
      handleLog ctx (some j) s = ⟨200, s, []⟩)
    ∧ (∀ (ctx : LogContext) (s : ServerState) (j : Json) (q c : String),
      j.getField "query" = some (.str q) →
      isDuplicateIn s.recentQueries (some (.str q)) = false →
      getAbstractFileByPath s.vault ctx.logFileName = some (.file c) →
      countWrites (handleLog ctx (some j) s).trace = 1
      ∧ (handleLog ctx (some j) s).status = 200
      ∧ handleLog ctx (some j) (handleLog ctx (some j) s).state
          = ⟨200, (handleLog ctx (some j) s).state, []⟩) := by
  have p1 : ∀ (ctx : LogContext) (s : ServerState) (j : Json) (q : String),
      j.getField "query" = some (.str q) →
      isDuplicateIn s.recentQueries (some (.str q)) = true →
      handleLog ctx (some j) s = ⟨200, s, []⟩ := by
    intro ctx s j q hq hdup
    have hthrow := getField_some_not_throws j _ _ hq
    simp only [handleLog, handleParsed]
    rw [hthrow, hq, hdup]
    rfl
  refine ⟨p1, ?_⟩
  intro ctx s j q c hq hdup hfile
  have hthrow := getField_some_not_throws j _ _ hq
  have hbuf : (handleLog ctx (some j) s).state.recentQueries
      = recordRecentQuery s.recentQueries (some (.str q)) := by
    cases hmode : ctx.prependMode with
    | true =>
      simp only [handleLog, handleParsed]
      rw [hthrow, hq, hdup, hfile, hmode]
      rfl
    | false =>
      simp only [handleLog, handleParsed]
      rw [hthrow, hq, hdup, hfile, hmode]
      rfl
  refine ⟨?_, ?_, ?_⟩
  · cases hmode : ctx.prependMode with
    | true =>
      simp only [handleLog, handleParsed]
      rw [hthrow, hq, hdup, hfile, hmode]
      rfl
    | false =>
      simp only [handleLog, handleParsed]
      rw [hthrow, hq, hdup, hfile, hmode]
      rfl
  · cases hmode : ctx.prependMode with
    | true =>
      simp only [handleLog, handleParsed]
      rw [hthrow, hq, hdup, hfile, hmode]
      rfl
    | false =>
      simp only [handleLog, handleParsed]
      rw [hthrow, hq, hdup, hfile, hmode]
      rfl
  · have hdup2 : isDuplicateIn (handleLog ctx (some j) s).state.recentQueries
        (some (.str q)) = true := by
      rw [hbuf]
      exact isDuplicateIn_recordRecentQuery_self _ _
    exact p1 ctx _ j q hq hdup2

/-- C4 witness: "cats" already buffered is suppressed; and twice "cats"
against an existing empty document commits exactly once. -/
theorem duplicate_suppressed_no_write_witness :
    ((Json.obj [("query", Json.str "cats")]).getField "query" = some (Json.str "cats")
     ∧ isDuplicateIn [some (Json.str "cats")] (some (Json.str "cats")) = true
     ∧ handleLog ⟨"log.md", false⟩ (some (Json.obj [("query", Json.str "cats")]))
         ⟨[], [some (Json.str "cats")]⟩
         = ⟨200, ⟨[], [some (Json.str "cats")]⟩, []⟩)
    ∧ (isDuplicateIn ([] : List JsVal) (some (Json.str "cats")) = false
     ∧ getAbstractFileByPath [("log.md", VEntry.file "")] "log.md" = some (VEntry.file "")
     ∧ countWrites (handleLog ⟨"log.md", false⟩
         (some (Json.obj [("query", Json.str "cats")]))
         ⟨[("log.md", VEntry.file "")], []⟩).trace = 1) :=
  ⟨⟨rfl, rfl,
    duplicate_suppressed_no_write.1 ⟨"log.md", false⟩ ⟨[], [some (Json.str "cats")]⟩
      (Json.obj [("query", Json.str "cats")]) "cats" rfl rfl⟩,
   ⟨rfl, rfl,
    (duplicate_suppressed_no_write.2 ⟨"log.md", false⟩ ⟨[("log.md", VEntry.file "")], []⟩
      (Json.obj [("query", Json.str "cats")]) "cats" "" rfl rfl rfl).1⟩⟩

/-- C8: `validatePort` returns no error exactly for integral ports within
1024–65535 inclusive; in particular 0, 1023, 65536 and the non-integer
1023.5 are rejected while the boundary values 1024 and 65535 are accepted. -/
theorem validatePort_range :
    (∀ p : ℚ, validatePort p = none ↔ p.den = 1 ∧ MIN_PORT ≤ p ∧ p ≤ MAX_PORT)
    ∧ validatePort 1024 = none ∧ validatePort 65535 = none
    ∧ validatePort 0 ≠ none ∧ validatePort 1023 ≠ none ∧ validatePort 65536 ≠ none
    ∧ validatePort (mkRat 2047 2) ≠ none := by
  refine ⟨fun p => ?_, by decide, by decide, by decide, by decide, by decide, by decide⟩
  unfold validatePort
  split_ifs with h1 h2
  · exact iff_of_false (by simp) fun hc => h1 hc.1
  · refine iff_of_false (by simp) fun hc => ?_
    rcases h2 with h | h
    · exact absurd hc.2.1 (not_le.mpr h)
    · exact absurd hc.2.2 (not_le.mpr h)
  · rw [not_or] at h2
    exact iff_of_true rfl ⟨not_ne_iff.mp h1, not_lt.mp h2.1, not_lt.mp h2.2⟩

/-- C8 witness: the default port 27123 is integral, in range, and accepted. -/
theorem validatePort_range_witness :
    (27123 : ℚ).den = 1 ∧ MIN_PORT ≤ (27123 : ℚ) ∧ (27123 : ℚ) ≤ MAX_PORT
    ∧ validatePort 27123 = none :=
  ⟨by decide, by decide, by decide,
    (validatePort_range.1 27123).mpr ⟨by decide, by decide, by decide⟩⟩

/-- C1 counterexample: with every bind attempt answered "address in use"
(the new port is occupied, and by the time of the rollback the old port has
been taken as well), changing the port of a listener bound on 27123 to 9999
reports AddressInUse but leaves the service reachable on NEITHER port, and
the rollback `oldServer.listen(oldPort, …)` failure surfaces as an
unhandled error event — so "the previous listener is reopened on its
original port so the service remains reachable on the old port" and
"rebind is all-or-nothing" are false on this concrete input. -/
theorem rebind_rollback_counterexample :
    (fun _ => Rebind.BindOutcome.addrInUse) 9999 = Rebind.BindOutcome.addrInUse
    ∧ (Rebind.changePort (fun _ => Rebind.BindOutcome.addrInUse)
        ⟨some 27123, 27123⟩ 9999).reported = some Rebind.BindErr.AddressInUse
    ∧ ¬ Rebind.reachableOn
        (Rebind.changePort (fun _ => Rebind.BindOutcome.addrInUse)
          ⟨some 27123, 27123⟩ 9999) 27123
    ∧ ¬ Rebind.reachableOn
        (Rebind.changePort (fun _ => Rebind.BindOutcome.addrInUse)
          ⟨some 27123, 27123⟩ 9999) 9999
    ∧ (Rebind.changePort (fun _ => Rebind.BindOutcome.addrInUse)
        ⟨some 27123, 27123⟩ 9999).crashed = true :=
  ⟨rfl, rfl, fun h => Option.noConfusion h, fun h => Option.noConfusion h, rfl⟩

/-- C1 (amended): on a successful bind of the new port the service is
reachable only on the new port and no error is reported; on a failed bind
the failure is reported classified as AddressInUse (`EADDRINUSE`) versus
other bind failures, and the previous listener is re-listened on its
original port, so WHEN that rollback bind succeeds the service remains
reachable on the old port; but when the rollback bind itself fails the
service is reachable on neither port and the failure surfaces as an
unhandled error event (the rollback listen has no error handler). -/
theorem rebind_rollback_classified :
    ∀ (env : Nat → Rebind.BindOutcome) (p1 p2 : Nat),
      (env p2 = .ok →
        Rebind.changePort env ⟨some p1, p1⟩ p2 = ⟨some p2, p2, none, false⟩
        ∧ (p1 ≠ p2 → ¬ Rebind.reachableOn (Rebind.changePort env ⟨some p1, p1⟩ p2) p1))
      ∧ (env p2 = .addrInUse → env p1 = .ok →
        Rebind.changePort env ⟨some p1, p1⟩ p2
          = ⟨some p1, p1, some .AddressInUse, false⟩)
      ∧ (∀ m, env p2 = .otherFail m → env p1 = .ok →
        Rebind.changePort env ⟨some p1, p1⟩ p2
          = ⟨some p1, p1, some (.OtherBindFailure m), false⟩)
      ∧ (env p2 = .addrInUse → env p1 ≠ .ok →
        (Rebind.changePort env ⟨some p1, p1⟩ p2).server = none
        ∧ (Rebind.changePort env ⟨some p1, p1⟩ p2).reported = some .AddressInUse
        ∧ (Rebind.changePort env ⟨some p1, p1⟩ p2).crashed = true) := by
  intro env p1 p2
  refine ⟨fun h => ?_, fun h h1 => ?_, fun m h h1 => ?_, fun h h1 => ?_⟩
  · have hr : Rebind.changePort env ⟨some p1, p1⟩ p2 = ⟨some p2, p2, none, false⟩ := by
      simp only [Rebind.changePort]
      rw [h]
    refine ⟨hr, fun hne hreach => ?_⟩
    rw [hr] at hreach
    exact hne (Option.some.inj hreach).symm
  · simp only [Rebind.changePort, Rebind.rollbackToOld]
    rw [h, h1]
  · simp only [Rebind.changePort, Rebind.rollbackToOld]
    rw [h, h1]
  · cases he : env p1 with
    | ok => exact absurd he h1
    | addrInUse =>
      have hr : Rebind.changePort env ⟨some p1, p1⟩ p2
          = ⟨none, p1, some .AddressInUse, true⟩ := by
        simp only [Rebind.changePort, Rebind.rollbackToOld]
        rw [h]
      exact ⟨by rw [hr], by rw [hr], by rw [hr]⟩
    | otherFail m =>
      have hr : Rebind.changePort env ⟨some p1, p1⟩ p2
          = ⟨none, p1, some .AddressInUse, true⟩ := by
        simp only [Rebind.changePort, Rebind.rollbackToOld]
        rw [h]
      exact ⟨by rw [hr], by rw [hr], by rw [hr]⟩

/-- C1 witness: with port 9999 occupied and every other port free, changing
the port of a listener bound on 27123 to 9999 rolls back to 27123 and
reports AddressInUse; changing it to 8080 succeeds and the service is no
longer reachable on 27123. -/
theorem rebind_rollback_classified_witness :
    ((fun p => if p == 9999 then Rebind.BindOutcome.addrInUse else Rebind.BindOutcome.ok) 9999
       = Rebind.BindOutcome.addrInUse
     ∧ (fun p => if p == 9999 then Rebind.BindOutcome.addrInUse else Rebind.BindOutcome.ok) 27123
       = Rebind.BindOutcome.ok
     ∧ Rebind.changePort
         (fun p => if p == 9999 then Rebind.BindOutcome.addrInUse else Rebind.BindOutcome.ok)
         ⟨some 27123, 27123⟩ 9999
       = ⟨some 27123, 27123, some .AddressInUse, false⟩)
    ∧ ((fun p => if p == 9999 then Rebind.BindOutcome.addrInUse else Rebind.BindOutcome.ok) 8080
       = Rebind.BindOutcome.ok
     ∧ Rebind.changePort
         (fun p => if p == 9999 then Rebind.BindOutcome.addrInUse else Rebind.BindOutcome.ok)
         ⟨some 27123, 27123⟩ 8080
       = ⟨some 8080, 8080, none, false⟩) :=
  ⟨⟨rfl, rfl,
    (rebind_rollback_classified
      (fun p => if p == 9999 then Rebind.BindOutcome.addrInUse else Rebind.BindOutcome.ok)
      27123 9999).2.1 rfl rfl⟩,
   ⟨rfl,
    ((rebind_rollback_classified
      (fun p => if p == 9999 then Rebind.BindOutcome.addrInUse else Rebind.BindOutcome.ok)
      27123 8080).1 rfl).1⟩⟩

/-- C2 counterexample: the empty JSON object is not of the expected event
shape, yet the handler responds 200 (and even creates the log file with
"undefined" fields): the handler never validates the shape. -/
theorem post_log_shape_counterexample :
    isEventShape (Json.obj []) = false
    ∧ (handleLog ⟨"log.md", false⟩ (some (Json.obj [])) ⟨[], []⟩).status = 200
    ∧ (handleLog ⟨"log.md", false⟩ (some (Json.obj [])) ⟨[], []⟩).state.vault
        = [("log.md", VEntry.file "- undefined\t— undefined [↗️](undefined)\n")] :=
  ⟨rfl, rfl, rfl⟩

/-- C2 (amended): the handler answers only 200 or 400, and it answers 400
exactly when `JSON.parse` throws, when the parsed value is `null`
(destructuring throws), or when the target document is absent and creating
it throws (commit failure); the event shape is never validated, so every
other JSON body — of the expected shape or not — gets 200. -/
theorem post_log_status_characterization :
    ∀ (ctx : LogContext) (body : Option Json) (s : ServerState),
      ((handleLog ctx body s).status = 200 ∨ (handleLog ctx body s).status = 400)
      ∧ ((handleLog ctx body s).status = 400 ↔
          body = none
          ∨ (∃ j, body = some j ∧ jsDestructThrows j = true)
          ∨ (∃ j e, body = some j ∧ jsDestructThrows j = false
              ∧ isDuplicateIn s.recentQueries (j.getField "query") = false
              ∧ getAbstractFileByPath s.vault ctx.logFileName = none
              ∧ vaultCreate s.vault ctx.logFileName
                  (formatLine (j.getField "query") (j.getField "url") (j.getField "timestamp"))
                  = .error e)) := by
  intro ctx body s
  cases body with
  | none => exact ⟨Or.inr rfl, iff_of_true rfl (Or.inl rfl)⟩
  | some j =>
    cases hthrow : jsDestructThrows j with
    | true =>
      have hred : handleLog ctx (some j) s = ⟨400, s, []⟩ := by
        simp only [handleLog]
        rw [hthrow]
        rfl
      refine ⟨Or.inr (by rw [hred]), iff_of_true (by rw [hred]) ?_⟩
      exact Or.inr (Or.inl ⟨j, rfl, hthrow⟩)
    | false =>
      cases hdup : isDuplicateIn s.recentQueries (j.getField "query") with
      | true =>
        have hred : handleLog ctx (some j) s = ⟨200, s, []⟩ := by
          simp only [handleLog, handleParsed]
          rw [hthrow, hdup]
          rfl
        refine ⟨Or.inl (by rw [hred]), iff_of_false (by rw [hred]; simp) ?_⟩
        rintro (h | ⟨j2, hj2, ht2⟩ | ⟨j2, e2, hj2, ht2, hd2, hl2, hc2⟩)
        · exact Option.some_ne_none j h
        · injection hj2 with hj2e
          subst hj2e
          rw [hthrow] at ht2
          exact Bool.noConfusion ht2
        · injection hj2 with hj2e
          subst hj2e
          rw [hdup] at hd2
          exact Bool.noConfusion hd2
      | false =>
        cases htarget : getAbstractFileByPath s.vault ctx.logFileName with
        | none =>
          cases hc : vaultCreate s.vault ctx.logFileName
              (formatLine (j.getField "query") (j.getField "url") (j.getField "timestamp")) with
          | ok v2 =>
            have hred : handleLog ctx (some j) s
                = ⟨200, ⟨v2, recordRecentQuery s.recentQueries (j.getField "query")⟩,
                   [.create ctx.logFileName
                      (formatLine (j.getField "query") (j.getField "url")
                        (j.getField "timestamp")),
                    .record (j.getField "query")]⟩ := by
              simp only [handleLog, handleParsed]
              rw [hthrow, hdup, htarget, hc]
              rfl
            refine ⟨Or.inl (by rw [hred]), iff_of_false (by rw [hred]; simp) ?_⟩
            rintro (h | ⟨j2, hj2, ht2⟩ | ⟨j2, e2, hj2, ht2, hd2, hl2, hc2⟩)
            · exact Option.some_ne_none j h
            · injection hj2 with hj2e
              subst hj2e
              rw [hthrow] at ht2
              exact Bool.noConfusion ht2
            · injection hj2 with hj2e
              subst hj2e
              rw [hc] at hc2
              exact Except.noConfusion hc2
          | error e0 =>
            have hred : handleLog ctx (some j) s
                = ⟨400, s,
                   [.create ctx.logFileName
                      (formatLine (j.getField "query") (j.getField "url")
                        (j.getField "timestamp"))]⟩ := by
              simp only [handleLog, handleParsed]
              rw [hthrow, hdup, htarget, hc]
              rfl
            refine ⟨Or.inr (by rw [hred]), iff_of_true (by rw [hred]) ?_⟩
            exact Or.inr (Or.inr ⟨j, e0, rfl, hthrow, hdup, rfl, hc⟩)
        | some entry =>
          have hstatus : (handleLog ctx (some j) s).status = 200 := by
            cases entry with
            | file c =>
              cases hmode : ctx.prependMode with
              | true =>
                simp only [handleLog, handleParsed]
                rw [hthrow, hdup, htarget, hmode]
                rfl
              | false =>
                simp only [handleLog, handleParsed]
                rw [hthrow, hdup, htarget, hmode]
                rfl
            | folder =>
              simp only [handleLog, handleParsed]
              rw [hthrow, hdup, htarget]
              rfl
          refine ⟨Or.inl hstatus, iff_of_false (by rw [hstatus]; simp) ?_⟩
          rintro (h | ⟨j2, hj2, ht2⟩ | ⟨j2, e2, hj2, ht2, hd2, hl2, hc2⟩)
          · exact Option.some_ne_none j h
          · injection hj2 with hj2e
            subst hj2e
            rw [hthrow] at ht2
            exact Bool.noConfusion ht2
          · exact Option.noConfusion hl2

/-- C2 witness: a parse failure is answered 400. -/
theorem post_log_status_characterization_witness :
    (handleLog ⟨"log.md", false⟩ none ⟨[], []⟩).status = 400 :=
  (post_log_status_characterization ⟨"log.md", false⟩ none ⟨[], []⟩).2.mpr (Or.inl rfl)

/-- C6 counterexample: a well-formed, non-duplicate event against the absent
target "logs/x.md" whose parent folder "logs" does not exist is NOT created:
the create throws, the handler answers 400 and the vault stays empty — so
"if the target does not exist, it is created containing exactly the event's
formatted line" fails as stated. -/
theorem commit_create_counterexample :
    getAbstractFileByPath ([] : Vault) "logs/x.md" = none
    ∧ isEventShape (Json.obj [("query", Json.str "cats"), ("url", Json.str "https://x"),
        ("timestamp", Json.num 1700000000000)]) = true
    ∧ (handleLog ⟨"logs/x.md", false⟩
        (some (Json.obj [("query", Json.str "cats"), ("url", Json.str "https://x"),
          ("timestamp", Json.num 1700000000000)])) ⟨[], []⟩).status = 400
    ∧ (handleLog ⟨"logs/x.md", false⟩
        (some (Json.obj [("query", Json.str "cats"), ("url", Json.str "https://x"),
          ("timestamp", Json.num 1700000000000)])) ⟨[], []⟩).state.vault = [] :=
  ⟨rfl, rfl, rfl, rfl⟩

/-- C6 (amended): for a well-formed, non-duplicate event — if the target
does not exist AND its parent container does (root path or existing folder),
it is created containing exactly the event's formatted line, in both modes;
if the target exists as a document, append mode makes its content
`old ++ line` (prior content preserved as a prefix) and prepend mode makes
it `line ++ old`; when the parent is absent the creation throws and the
handler answers 400 (see the counterexample). -/
theorem commit_modes_content :
    ∀ (ctx : LogContext) (s : ServerState) (j : Json) (q u : String) (n : Int),
      j.getField "query" = some (.str q) →
      j.getField "url" = some (.str u) →
      j.getField "timestamp" = some (.num n) →
      isDuplicateIn s.recentQueries (some (.str q)) = false →
      ((getAbstractFileByPath s.vault ctx.logFileName = none →
        (parentPath ctx.logFileName = none
          ∨ ∃ pp, parentPath ctx.logFileName = some pp
              ∧ getAbstractFileByPath s.vault pp = some .folder) →
        (handleLog ctx (some j) s).status = 200
        ∧ (handleLog ctx (some j) s).state.vault
            = s.vault ++ [(ctx.logFileName,
                VEntry.file (formatLine (some (.str q)) (some (.str u)) (some (.num n))))])
      ∧ (∀ old, getAbstractFileByPath s.vault ctx.logFileName = some (.file old) →
          ctx.prependMode = false →
          (handleLog ctx (some j) s).status = 200
          ∧ getAbstractFileByPath (handleLog ctx (some j) s).state.vault ctx.logFileName
              = some (.file (old ++ formatLine (some (.str q)) (some (.str u)) (some (.num n)))))
      ∧ (∀ old, getAbstractFileByPath s.vault ctx.logFileName = some (.file old) →
          ctx.prependMode = true →
          (handleLog ctx (some j) s).status = 200
          ∧ getAbstractFileByPath (handleLog ctx (some j) s).state.vault ctx.logFileName
              = some (.file (formatLine (some (.str q)) (some (.str u)) (some (.num n)) ++ old)))) := by
  intro ctx s j q u n hq hu hn hdup
  have hthrow := getField_some_not_throws j _ _ hq
  refine ⟨fun habs hparent => ?_, fun old hfile hmode => ?_, fun old hfile hmode => ?_⟩
  · have hcreate : vaultCreate s.vault ctx.logFileName
        (formatLine (some (.str q)) (some (.str u)) (some (.num n)))
        = .ok (s.vault ++ [(ctx.logFileName,
            VEntry.file (formatLine (some (.str q)) (some (.str u)) (some (.num n))))]) := by
      rcases hparent with hp | ⟨pp, hpp, hfold⟩
      · simp [vaultCreate, habs, hp]
      · simp [vaultCreate, habs, hpp, hfold]
    have hred : handleLog ctx (some j) s
        = ⟨200, ⟨s.vault ++ [(ctx.logFileName,
              VEntry.file (formatLine (some (.str q)) (some (.str u)) (some (.num n))))],
            recordRecentQuery s.recentQueries (some (.str q))⟩,
           [.create ctx.logFileName
              (formatLine (some (.str q)) (some (.str u)) (some (.num n))),
            .record (some (.str q))]⟩ := by
      simp only [handleLog, handleParsed]
      rw [hthrow, hq, hu, hn, hdup, habs, hcreate]
      rfl
    exact ⟨by rw [hred], by rw [hred]⟩
  · have hred : handleLog ctx (some j) s
        = ⟨200, ⟨vaultAppend s.vault ctx.logFileName
              (formatLine (some (.str q)) (some (.str u)) (some (.num n))),
            recordRecentQuery s.recentQueries (some (.str q))⟩,
           [.append ctx.logFileName
              (formatLine (some (.str q)) (some (.str u)) (some (.num n))),
            .record (some (.str q))]⟩ := by
      simp only [handleLog, handleParsed]
      rw [hthrow, hq, hu, hn, hdup, hfile, hmode]
      rfl
    refine ⟨by rw [hred], ?_⟩
    rw [hred]
    exact getAbstractFileByPath_vaultAppend_self s.vault ctx.logFileName _ old hfile
  · have hold : vaultRead s.vault ctx.logFileName = old := by
      unfold vaultRead
      rw [hfile]
    have hred : handleLog ctx (some j) s
        = ⟨200, ⟨vaultModify s.vault ctx.logFileName
              (formatLine (some (.str q)) (some (.str u)) (some (.num n)) ++ old),
            recordRecentQuery s.recentQueries (some (.str q))⟩,
           [.read ctx.logFileName,
            .modify ctx.logFileName
              (formatLine (some (.str q)) (some (.str u)) (some (.num n)) ++ old),
            .record (some (.str q))]⟩ := by
      simp only [handleLog, handleParsed]
      rw [hthrow, hq, hu, hn, hdup, hfile, hmode, hold]
      rfl
    refine ⟨by rw [hred], ?_⟩
    rw [hred]
    exact getAbstractFileByPath_vaultModify_self s.vault ctx.logFileName _ _ hfile

/-- C6 witness: concrete instances of all three commit cases. -/
theorem commit_modes_content_witness :
    ((handleLog ⟨"log.md", false⟩
        (some (Json.obj [("query", Json.str "cats"), ("url", Json.str "u"),
          ("timestamp", Json.num 5)])) ⟨[], []⟩).status = 200
     ∧ (handleLog ⟨"log.md", false⟩
        (some (Json.obj [("query", Json.str "cats"), ("url", Json.str "u"),
          ("timestamp", Json.num 5)])) ⟨[], []⟩).state.vault
        = [] ++ [("log.md", VEntry.file
            (formatLine (some (Json.str "cats")) (some (Json.str "u")) (some (Json.num 5))))])
    ∧ ((handleLog ⟨"log.md", false⟩
        (some (Json.obj [("query", Json.str "cats"), ("url", Json.str "u"),
          ("timestamp", Json.num 5)])) ⟨[("log.md", VEntry.file "before\n")], []⟩).status = 200
     ∧ getAbstractFileByPath (handleLog ⟨"log.md", false⟩
        (some (Json.obj [("query", Json.str "cats"), ("url", Json.str "u"),
          ("timestamp", Json.num 5)])) ⟨[("log.md", VEntry.file "before\n")], []⟩).state.vault
          "log.md"
        = some (VEntry.file ("before\n"
            ++ formatLine (some (Json.str "cats")) (some (Json.str "u")) (some (Json.num 5)))))
    ∧ ((handleLog ⟨"log.md", true⟩
        (some (Json.obj [("query", Json.str "cats"), ("url", Json.str "u"),
          ("timestamp", Json.num 5)])) ⟨[("log.md", VEntry.file "before\n")], []⟩).status = 200
     ∧ getAbstractFileByPath (handleLog ⟨"log.md", true⟩
        (some (Json.obj [("query", Json.str "cats"), ("url", Json.str "u"),
          ("timestamp", Json.num 5)])) ⟨[("log.md", VEntry.file "before\n")], []⟩).state.vault
          "log.md"
        = some (VEntry.file
            (formatLine (some (Json.str "cats")) (some (Json.str "u")) (some (Json.num 5))
              ++ "before\n"))) :=
  ⟨(commit_modes_content ⟨"log.md", false⟩ ⟨[], []⟩
      (Json.obj [("query", Json.str "cats"), ("url", Json.str "u"), ("timestamp", Json.num 5)])
      "cats" "u" 5 rfl rfl rfl rfl).1 rfl (Or.inl rfl),
   (commit_modes_content ⟨"log.md", false⟩ ⟨[("log.md", VEntry.file "before\n")], []⟩
      (Json.obj [("query", Json.str "cats"), ("url", Json.str "u"), ("timestamp", Json.num 5)])
      "cats" "u" 5 rfl rfl rfl rfl).2.1 "before\n" rfl rfl,
   (commit_modes_content ⟨"log.md", true⟩ ⟨[("log.md", VEntry.file "before\n")], []⟩
      (Json.obj [("query", Json.str "cats"), ("url", Json.str "u"), ("timestamp", Json.num 5)])
      "cats" "u" 5 rfl rfl rfl rfl).2.2 "before\n" rfl rfl⟩

/-- C5: starting from the empty buffer, after every sequence of handled
requests the recent-query buffer holds at most 3 entries; recording into a
full buffer evicts the oldest entry (FIFO); and for every sequence of up to
3 distinct queries sent in order from a fresh state, none is treated as a
duplicate. -/
theorem recent_buffer_bounded_fifo :
    (∀ (ctx : LogContext) (v0 : Vault) (reqs : List Request),
       (runRequests ctx ⟨v0, []⟩ reqs).recentQueries.length ≤ MAX_RECENT)
    ∧ (∀ (b : List JsVal) (q : JsVal), b.length = MAX_RECENT →
       recordRecentQuery b q = b.tail ++ [q])
    ∧ (∀ (ctx : LogContext) (v0 : Vault) (j1 j2 j3 : Json) (q1 q2 q3 : String),
       j1.getField "query" = some (.str q1) →
       j2.getField "query" = some (.str q2) →
       j3.getField "query" = some (.str q3) →
       q1 ≠ q2 → q1 ≠ q3 → q2 ≠ q3 →
       isDuplicateIn ([] : List JsVal) (some (.str q1)) = false
       ∧ isDuplicateIn (handle ctx (.postLog (some j1)) ⟨v0, []⟩).state.recentQueries
           (some (.str q2)) = false
       ∧ isDuplicateIn (handle ctx (.postLog (some j2))
             (handle ctx (.postLog (some j1)) ⟨v0, []⟩).state).state.recentQueries
           (some (.str q3)) = false) := by
  refine ⟨?_, ?_, ?_⟩
  · intro ctx v0 reqs
    exact runRequests_recentQueries_le ctx reqs ⟨v0, []⟩ (by simp)
  · intro b q hlen
    unfold recordRecentQuery
    dsimp only
    rw [if_pos (by rw [List.length_append, List.length_singleton, hlen]; omega)]
    cases b with
    | nil => simp [MAX_RECENT] at hlen
    | cons hd tl => simp
  · intro ctx v0 j1 j2 j3 q1 q2 q3 h1 h2 h3 h12 h13 h23
    have hs1 : ∀ x ∈ (handle ctx (.postLog (some j1)) ⟨v0, []⟩).state.recentQueries,
        x = some (Json.str q1) := by
      intro x hx
      rcases mem_handle_recentQueries ctx _ _ x hx with hmem | ⟨j, hj, hqx⟩
      · simp at hmem
      · injection hj with hjo
        injection hjo with hje
        subst hje
        exact hqx.trans h1
    have hs2 : ∀ x ∈ (handle ctx (.postLog (some j2))
          (handle ctx (.postLog (some j1)) ⟨v0, []⟩).state).state.recentQueries,
        x = some (Json.str q1) ∨ x = some (Json.str q2) := by
      intro x hx
      rcases mem_handle_recentQueries ctx _ _ x hx with hmem | ⟨j, hj, hqx⟩
      · exact Or.inl (hs1 x hmem)
      · injection hj with hjo
        injection hjo with hje
        subst hje
        exact Or.inr (hqx.trans h2)
    refine ⟨rfl, ?_, ?_⟩
    · unfold isDuplicateIn
      rw [Bool.eq_false_iff]
      intro htrue
      obtain ⟨x, hxmem, hxf⟩ := List.any_eq_true.mp htrue
      rw [hs1 x hxmem] at hxf
      have hbeq : (q1 == q2) = true := hxf
      exact h12 (eq_of_beq hbeq)
    · unfold isDuplicateIn
      rw [Bool.eq_false_iff]
      intro htrue
      obtain ⟨x, hxmem, hxf⟩ := List.any_eq_true.mp htrue
      rcases hs2 x hxmem with hx1 | hx2
      · rw [hx1] at hxf
        have hbeq : (q1 == q3) = true := hxf
        exact h13 (eq_of_beq hbeq)
      · rw [hx2] at hxf
        have hbeq : (q2 == q3) = true := hxf
        exact h23 (eq_of_beq hbeq)

/-- C5 witness: three concrete distinct queries, none treated as duplicate. -/
theorem recent_buffer_bounded_fifo_witness :
    ((Json.obj [("query", Json.str "a")]).getField "query" = some (Json.str "a")
     ∧ (Json.obj [("query", Json.str "b")]).getField "query" = some (Json.str "b")
     ∧ (Json.obj [("query", Json.str "c")]).getField "query" = some (Json.str "c")
     ∧ ("a" : String) ≠ "b" ∧ ("a" : String) ≠ "c" ∧ ("b" : String) ≠ "c")
    ∧ (([some (Json.str "x"), some (Json.str "y"), some (Json.str "z")] : List JsVal).length
        = MAX_RECENT
     ∧ recordRecentQuery [some (Json.str "x"), some (Json.str "y"), some (Json.str "z")]
         (some (Json.str "w"))
        = [some (Json.str "y"), some (Json.str "z"), some (Json.str "w")])
    ∧ isDuplicateIn (handle ⟨"log.md", false⟩
          (.postLog (some (Json.obj [("query", Json.str "b")])))
          (handle ⟨"log.md", false⟩ (.postLog (some (Json.obj [("query", Json.str "a")])))
            ⟨[], []⟩).state).state.recentQueries
        (some (Json.str "c")) = false :=
  ⟨⟨rfl, rfl, rfl, by decide, by decide, by decide⟩,
   ⟨rfl,
    recent_buffer_bounded_fifo.2.1
      [some (Json.str "x"), some (Json.str "y"), some (Json.str "z")]
      (some (Json.str "w")) rfl⟩,
   (recent_buffer_bounded_fifo.2.2 ⟨"log.md", false⟩ []
      (Json.obj [("query", Json.str "a")]) (Json.obj [("query", Json.str "b")])
      (Json.obj [("query", Json.str "c")]) "a" "b" "c"
      rfl rfl rfl (by decide) (by decide) (by decide)).2.2⟩

end SearchLogger
